import Mathlib

/-!
Verification development for the openframe-cli bootstrap preflight gate
(`internal/bootstrap/preflight.go`) and the bootstrap command surface
(`cmd/bootstrap/bootstrap.go`).

The Go code is embedded shallowly: every external interaction (tool probe,
installer invocation, memory reading, user confirmation, Docker start/wait)
is an observation recorded in an `Obs` record, and each preflight function
becomes a pure Lean function returning the ordered list of side effects it
performs (`Event` trace) together with the Go error it returns
(`Option PreflightError`).
-/

namespace OpenframePreflight

/-- The six tools of the preflight catalog (`getAllTools` in preflight.go),
identified by their `Name` field. -/
inductive ToolName
  | docker
  | kubectl
  | k3d
  | helm
  | git
  | certificates
deriving DecidableEq, Repr

/-- The three flags carried by `PreflightChecker` (`nonInteractive`, `force`,
`verbose`). -/
structure Flags where
  nonInteractive : Bool
  force : Bool
  verbose : Bool
deriving DecidableEq, Repr

/-- One preflight run's external observations: the memory reading returned by
`GetMemoryInfo`, the result of each tool probe (`IsInstalled` in the catalog),
the Docker binary-layer check (`docker.NewDockerInstaller().IsInstalled()`),
the outcome each installer would report, the answer each interactive
confirmation would produce, and the outcomes of `docker.StartDocker` /
`docker.WaitForDocker`. -/
structure Obs where
  memCurrent : Nat
  memRecommended : Nat
  memSufficient : Bool
  dockerRunning : Bool
  dockerBinInstalled : Bool
  kubectlInstalled : Bool
  k3dInstalled : Bool
  helmInstalled : Bool
  gitInstalled : Bool
  certsInstalled : Bool
  dockerInstallOk : Bool
  kubectlInstallOk : Bool
  k3dInstallOk : Bool
  helmInstallOk : Bool
  certsInstallOk : Bool
  memConfirm : Bool
  installConfirm : Bool
  dockerConfirm : Bool
  dockerStartOk : Bool
  dockerWaitOk : Bool
deriving DecidableEq, Repr

/-- Which interactive confirmation a prompt event corresponds to. -/
inductive PromptKind
  | memContinue
  | installMissing
  | dockerStart
deriving DecidableEq, Repr

/-- Observable side effects of a preflight run, in program order: pterm
output, interactive prompts (with their default answer), tool probes,
installer invocations, and Docker start/wait invocations. -/
inductive Event
  | warnMemory (current recommended : Nat)
  | infoForceContinue
  | infoNonInteractiveContinue
  | infoChartsMayFail
  | prompt (k : PromptKind) (dflt : Bool)
  | probe (t : ToolName)
  | probeDockerBinary
  | warnMissingPrereqs (ts : List ToolName)
  | infoAutoInstall
  | spinnerInstallStart (idx total : Nat) (t : ToolName)
  | invokeInstaller (t : ToolName)
  | spinnerInstallWarnSkipped (t : ToolName)
  | spinnerInstallFail (t : ToolName)
  | spinnerInstallSuccess (t : ToolName)
  | infoSkipCertificates
  | warnInstallSomeFailed
  | infoContinuingAnyway
  | showManualInstructions (ts : List ToolName)
  | warnDockerNotRunning
  | infoAttemptAutoStart
  | invokeDockerStart
  | warnCouldNotStart
  | infoStartManually
  | spinnerWaitDockerStart
  | invokeDockerWait
  | spinnerWarnDockerStartFailed
  | spinnerFailDockerStart
  | spinnerSuccessDockerStarted
  | errorFailedToStartDocker
  | infoStartDockerDesktopManually
  | showPlatformStartInstructions
deriving DecidableEq, Repr

/-- Cause of a single-tool install failure, as produced by `installTool`:
either the tool's installer returned an error, or the tool was Git, whose
`installTool` case always returns the error
`git is not installed. <manual instructions>`. -/
inductive InstallErr
  | installerFailed
  | gitNotInstalled
deriving DecidableEq, Repr

/-- The Go errors `CheckAll` and its helpers can return, as structured
values. -/
inductive PreflightError
  | insufficientMemory (current recommended : Nat)
  | installFailed (t : ToolName) (e : InstallErr)
  | prerequisitesNotInstalled
  | failedToStartDocker
  | dockerFailedToStart
  | dockerNotRunning
deriving DecidableEq, Repr

/-- The `IsInstalled` probe of each catalog entry (`getAllTools`): Docker's
probe is `docker.IsDockerRunning()`; the others are their installers'
`IsInstalled`. -/
def isInstalled (o : Obs) : ToolName → Bool
  | .docker => o.dockerRunning
  | .kubectl => o.kubectlInstalled
  | .k3d => o.k3dInstalled
  | .helm => o.helmInstalled
  | .git => o.gitInstalled
  | .certificates => o.certsInstalled

/-- The catalog order of `getAllTools`. -/
def toolCatalog : List ToolName :=
  [.docker, .kubectl, .k3d, .helm, .git, .certificates]

/-- `installTool`: install a single tool by name. Certificates in
non-interactive mode are skipped with an info line and succeed; Git always
returns the `git is not installed` error carrying the manual
instructions. -/
def installTool (p : Flags) (o : Obs) : ToolName → List Event × Option InstallErr
  | .docker =>
      ([.invokeInstaller .docker], if o.dockerInstallOk then none else some .installerFailed)
  | .kubectl =>
      ([.invokeInstaller .kubectl], if o.kubectlInstallOk then none else some .installerFailed)
  | .k3d =>
      ([.invokeInstaller .k3d], if o.k3dInstallOk then none else some .installerFailed)
  | .helm =>
      ([.invokeInstaller .helm], if o.helmInstallOk then none else some .installerFailed)
  | .certificates =>
      if p.nonInteractive then ([.infoSkipCertificates], none)
      else ([.invokeInstaller .certificates],
            if o.certsInstallOk then none else some .installerFailed)
  | .git => ([], some .gitNotInstalled)

/-- Whether `installTool` succeeds for this tool under these flags and
observations. -/
def installOk (p : Flags) (o : Obs) (t : ToolName) : Bool :=
  (installTool p o t).2.isNone

/-- Loop body of `installTools`: iterate with a 1-based progress index over
the list; on failure, non-interactive mode warns (`Skipped ...`) and
continues, interactive mode fails the spinner and returns
`failed to install <tool>: <err>` immediately. -/
def installToolsAux (p : Flags) (o : Obs) (total : Nat) :
    Nat → List ToolName → List Event × Option PreflightError
  | _, [] => ([], none)
  | idx, t :: rest =>
    let hd := [Event.spinnerInstallStart (idx + 1) total t]
    let step := installTool p o t
    match step.2 with
    | some e =>
      if p.nonInteractive then
        let tail := installToolsAux p o total (idx + 1) rest
        (hd ++ step.1 ++ [Event.spinnerInstallWarnSkipped t] ++ tail.1, tail.2)
      else
        (hd ++ step.1 ++ [Event.spinnerInstallFail t], some (.installFailed t e))
    | none =>
      let tail := installToolsAux p o total (idx + 1) rest
      (hd ++ step.1 ++ [Event.spinnerInstallSuccess t] ++ tail.1, tail.2)

/-- `installTools`: install the given list of missing tools. -/
def installTools (p : Flags) (o : Obs) (ts : List ToolName) :
    List Event × Option PreflightError :=
  installToolsAux p o ts.length 0 ts

/-- `checkMemory`: warn when the reading is insufficient; `force` continues,
then non-interactive continues, otherwise an interactive confirmation with
default `false` decides; a declined confirmation returns the
`insufficient memory` error. -/
def checkMemory (p : Flags) (o : Obs) : List Event × Option PreflightError :=
  if o.memSufficient then ([], none)
  else
    let w := [Event.warnMemory o.memCurrent o.memRecommended]
    if p.force then (w ++ [.infoForceContinue], none)
    else if p.nonInteractive then (w ++ [.infoNonInteractiveContinue], none)
    else
      let evs := w ++ [Event.infoChartsMayFail, Event.prompt .memContinue false]
      if o.memConfirm then (evs, none)
      else (evs, some (.insufficientMemory o.memCurrent o.memRecommended))

/-- Phase 2 of `CheckAll`: probe every catalog entry in order and collect the
missing ones in order. -/
def scanTools (o : Obs) (order : List ToolName) : List Event × List ToolName :=
  (order.map Event.probe, order.filter (fun t => !isInstalled o t))

/-- The classification loop of `CheckAll` (lines 74-84): Docker that is
missing but installed at the binary layer sets `dockerNotRunning` instead of
joining `installable`; every other missing tool joins `installable`.
Returns (events, installable, dockerNotRunning). -/
def classify (o : Obs) : List ToolName → List Event × List ToolName × Bool
  | [] => ([], [], false)
  | t :: rest =>
    let tail := classify o rest
    if t = ToolName.docker then
      if o.dockerBinInstalled then
        (Event.probeDockerBinary :: tail.1, tail.2.1, true)
      else
        (Event.probeDockerBinary :: tail.1, ToolName.docker :: tail.2.1, tail.2.2)
    else
      (tail.1, t :: tail.2.1, tail.2.2)

/-- Phase 3 of `CheckAll`: when `installable` is non-empty, print the missing
list, obtain consent (automatic in non-interactive mode), run the installers
on consent (a failure is swallowed with warnings in non-interactive mode),
and on refusal show manual instructions and return
`prerequisites not installed`. -/
def installPhase (p : Flags) (o : Obs) (installable : List ToolName) :
    List Event × Option PreflightError :=
  if installable.isEmpty then ([], none)
  else
    let w := [Event.warnMissingPrereqs installable]
    if p.nonInteractive then
      let ev := w ++ [Event.infoAutoInstall]
      let r := installTools p o installable
      match r.2 with
      | some _ => (ev ++ r.1 ++ [Event.warnInstallSomeFailed, Event.infoContinuingAnyway], none)
      | none => (ev ++ r.1, none)
    else
      let ev := w ++ [Event.prompt .installMissing true]
      if o.installConfirm then
        let r := installTools p o installable
        match r.2 with
        | some e => (ev ++ r.1, some e)
        | none => (ev ++ r.1, none)
      else
        (ev ++ [Event.showManualInstructions installable], some .prerequisitesNotInstalled)

/-- `startDocker`: non-interactive mode attempts the start and downgrades
every failure to warnings (returning nil); interactive mode asks for
confirmation first, then either starts and waits (failures are errors) or,
on decline, shows the platform-specific instructions and returns the
`Docker is not running` error. -/
def startDocker (p : Flags) (o : Obs) : List Event × Option PreflightError :=
  if p.nonInteractive then
    let pre := [Event.warnDockerNotRunning, Event.infoAttemptAutoStart, Event.invokeDockerStart]
    if !o.dockerStartOk then
      (pre ++ [.warnCouldNotStart, .infoStartManually], none)
    else
      let pre2 := pre ++ [Event.spinnerWaitDockerStart, Event.invokeDockerWait]
      if !o.dockerWaitOk then (pre2 ++ [.spinnerWarnDockerStartFailed], none)
      else (pre2 ++ [.spinnerSuccessDockerStarted], none)
  else
    let pre := [Event.warnDockerNotRunning, Event.prompt .dockerStart true]
    if o.dockerConfirm then
      let pre2 := pre ++ [Event.invokeDockerStart]
      if !o.dockerStartOk then
        (pre2 ++ [.errorFailedToStartDocker, .infoStartDockerDesktopManually],
         some .failedToStartDocker)
      else
        let pre3 := pre2 ++ [Event.spinnerWaitDockerStart, Event.invokeDockerWait]
        if !o.dockerWaitOk then (pre3 ++ [.spinnerFailDockerStart], some .dockerFailedToStart)
        else (pre3 ++ [.spinnerSuccessDockerStarted], none)
    else
      (pre ++ [.showPlatformStartInstructions], some .dockerNotRunning)

/-- `CheckAll` over an explicit probe order: memory check first, then the
tool scan, the Docker classification, the install phase, and finally the
Docker start when Docker was classified dormant. -/
def checkAllWith (p : Flags) (o : Obs) (order : List ToolName) :
    List Event × Option PreflightError :=
  let m := checkMemory p o
  match m.2 with
  | some e => (m.1, some e)
  | none =>
    let s := scanTools o order
    if s.2.isEmpty then (m.1 ++ s.1, none)
    else
      let c := classify o s.2
      let ip := installPhase p o c.2.1
      match ip.2 with
      | some e => (m.1 ++ s.1 ++ c.1 ++ ip.1, some e)
      | none =>
        if c.2.2 then
          let d := startDocker p o
          (m.1 ++ s.1 ++ c.1 ++ ip.1 ++ d.1, d.2)
        else (m.1 ++ s.1 ++ c.1 ++ ip.1, none)

/-- `CheckAll` as the source runs it: over the catalog order. -/
def checkAll (p : Flags) (o : Obs) : List Event × Option PreflightError :=
  checkAllWith p o toolCatalog

/-- Events that interact with the user's terminal input. -/
def isPromptEvent : Event → Bool
  | .prompt _ _ => true
  | _ => false

/-- Events that invoke an external action: a tool probe, an installer, or a
Docker start/wait. -/
def isActionEvent : Event → Bool
  | .probe _ => true
  | .probeDockerBinary => true
  | .invokeInstaller _ => true
  | .invokeDockerStart => true
  | .invokeDockerWait => true
  | _ => false

/-- The tools for which an install attempt was started, read off a trace. -/
def startedTools (evs : List Event) : List ToolName :=
  evs.filterMap fun e =>
    match e with
    | .spinnerInstallStart _ _ t => some t
    | _ => none

/-- The tools `installTools` would attempt: all of them in non-interactive
mode, otherwise the list up to and including the first failing tool. -/
def attemptedList (p : Flags) (o : Obs) : List ToolName → List ToolName
  | [] => []
  | t :: rest =>
    t :: (if installOk p o t || p.nonInteractive then attemptedList p o rest else [])

/-- A missing tool that the classification keeps in the installable set:
its probe failed, and it is not the dormant-Docker case. -/
def instProp (o : Obs) (t : ToolName) : Prop :=
  isInstalled o t = false ∧ ¬(t = ToolName.docker ∧ o.dockerBinInstalled = true)

instance (o : Obs) (t : ToolName) : Decidable (instProp o t) := by
  unfold instProp; infer_instance

/-- A trace with no interactive prompt in it. -/
def promptFree (evs : List Event) : Prop :=
  ∀ e ∈ evs, isPromptEvent e = false

lemma promptFree_append {a b : List Event} (ha : promptFree a) (hb : promptFree b) :
    promptFree (a ++ b) := by
  intro e he
  rcases List.mem_append.mp he with h | h
  · exact ha e h
  · exact hb e h

lemma installOk_git (p : Flags) (o : Obs) : installOk p o ToolName.git = false := rfl

lemma installToolsAux_none_iff (p : Flags) (o : Obs) (total : Nat) :
    ∀ (ts : List ToolName) (idx : Nat),
      (installToolsAux p o total idx ts).2 = none ↔
        (p.nonInteractive = true ∨ ∀ t ∈ ts, installOk p o t = true) := by
  intro ts
  induction ts with
  | nil => intro idx; simp [installToolsAux]
  | cons t rest ih =>
    intro idx
    simp only [installToolsAux]
    cases hs : (installTool p o t).2 with
    | none =>
      have hok : installOk p o t = true := by simp [installOk, hs]
      simp only [hs]
      rw [ih]
      constructor
      · rintro (h | h)
        · exact Or.inl h
        · exact Or.inr (by
            intro u hu
            rcases List.mem_cons.mp hu with rfl | hu
            · exact hok
            · exact h u hu)
      · rintro (h | h)
        · exact Or.inl h
        · exact Or.inr fun u hu => h u (List.mem_cons_of_mem _ hu)
    | some e =>
      have hok : installOk p o t = false := by simp [installOk, hs]
      cases hni : p.nonInteractive with
      | true =>
        simp only [hs, hni, if_true, reduceIte]
        rw [ih]
        simp [hni]
      | false =>
        simp only [hs, hni, Bool.false_eq_true, if_false, reduceIte]
        constructor
        · intro h; exact absurd h (by simp)
        · rintro (h | h)
          · exact absurd h (by simp [hni])
          · have := h t (List.mem_cons_self _ _)
            rw [hok] at this
            exact absurd this (by simp)

lemma installTools_none_iff (p : Flags) (o : Obs) (ts : List ToolName) :
    (installTools p o ts).2 = none ↔
      (p.nonInteractive = true ∨ ∀ t ∈ ts, installOk p o t = true) :=
  installToolsAux_none_iff p o ts.length ts 0

lemma startedTools_append (a b : List Event) :
    startedTools (a ++ b) = startedTools a ++ startedTools b := by
  simp [startedTools]

lemma startedTools_installTool (p : Flags) (o : Obs) (t : ToolName) :
    startedTools (installTool p o t).1 = [] := by
  cases t <;> cases hp : p.nonInteractive <;> simp [installTool, startedTools, hp]

lemma startedTools_installToolsAux (p : Flags) (o : Obs) (total : Nat) :
    ∀ (ts : List ToolName) (idx : Nat),
      startedTools (installToolsAux p o total idx ts).1 = attemptedList p o ts := by
  intro ts
  induction ts with
  | nil => intro idx; simp [installToolsAux, attemptedList, startedTools]
  | cons t rest ih =>
    intro idx
    simp only [installToolsAux, attemptedList]
    cases hs : (installTool p o t).2 with
    | none =>
      have hok : installOk p o t = true := by simp [installOk, hs]
      simp only [hs]
      rw [startedTools_append, startedTools_append, startedTools_append,
        startedTools_installTool, ih, hok]
      simp [startedTools]
    | some e =>
      have hok : installOk p o t = false := by simp [installOk, hs]
      cases hni : p.nonInteractive with
      | true =>
        simp only [hs, hni, if_true, reduceIte]
        rw [startedTools_append, startedTools_append, startedTools_append,
          startedTools_installTool, ih, hok]
        simp [startedTools]
      | false =>
        simp only [hs, hni, Bool.false_eq_true, if_false, reduceIte]
        rw [startedTools_append, startedTools_append, startedTools_installTool, hok]
        simp [startedTools]

lemma startedTools_installTools (p : Flags) (o : Obs) (ts : List ToolName) :
    startedTools (installTools p o ts).1 = attemptedList p o ts :=
  startedTools_installToolsAux p o ts.length ts 0

lemma attemptedList_nonInteractive (p : Flags) (o : Obs) (h : p.nonInteractive = true) :
    ∀ ts : List ToolName, attemptedList p o ts = ts := by
  intro ts
  induction ts with
  | nil => rfl
  | cons t rest ih => simp [attemptedList, h, ih]

lemma attemptedList_firstFail (p : Flags) (o : Obs) (h : p.nonInteractive = false) :
    ∀ (pre : List ToolName) (t : ToolName) (post : List ToolName),
      (∀ u ∈ pre, installOk p o u = true) → installOk p o t = false →
      attemptedList p o (pre ++ t :: post) = pre ++ [t] := by
  intro pre
  induction pre with
  | nil =>
    intro t post _ hf
    simp [attemptedList, hf, h]
  | cons u rest ih =>
    intro t post hpre hf
    have hu : installOk p o u = true := hpre u (List.mem_cons_self _ _)
    simp only [List.cons_append, attemptedList, hu, Bool.true_or, if_true, reduceIte,
      List.append_eq]
    rw [ih t post (fun v hv => hpre v (List.mem_cons_of_mem _ hv)) hf]

lemma installOk_eq_none (p : Flags) (o : Obs) (t : ToolName)
    (h : installOk p o t = true) : (installTool p o t).2 = none := by
  unfold installOk at h
  exact Option.isNone_iff_eq_none.mp h

lemma installToolsAux_firstFail (p : Flags) (o : Obs) (total : Nat)
    (h : p.nonInteractive = false) :
    ∀ (pre : List ToolName) (t : ToolName) (post : List ToolName) (e : InstallErr) (idx : Nat),
      (∀ u ∈ pre, installOk p o u = true) → (installTool p o t).2 = some e →
      (installToolsAux p o total idx (pre ++ t :: post)).2 =
        some (.installFailed t e) := by
  intro pre
  induction pre with
  | nil =>
    intro t post e idx _ hf
    simp only [List.nil_append, installToolsAux, hf, h, Bool.false_eq_true, if_false, reduceIte]
  | cons u rest ih =>
    intro t post e idx hpre hf
    have hu : (installTool p o u).2 = none :=
      installOk_eq_none p o u (hpre u (List.mem_cons_self _ _))
    simp only [List.cons_append, installToolsAux, hu]
    exact ih t post e (idx + 1) (fun v hv => hpre v (List.mem_cons_of_mem _ hv)) hf

lemma warnSkipped_mem_installToolsAux (p : Flags) (o : Obs) (total : Nat)
    (h : p.nonInteractive = true) :
    ∀ (ts : List ToolName) (idx : Nat) (t : ToolName), t ∈ ts → installOk p o t = false →
      Event.spinnerInstallWarnSkipped t ∈ (installToolsAux p o total idx ts).1 := by
  intro ts
  induction ts with
  | nil => intro idx t ht; exact absurd ht (List.not_mem_nil t)
  | cons u rest ih =>
    intro idx t ht hbad
    rcases List.mem_cons.mp ht with rfl | hmem
    · cases hs : (installTool p o t).2 with
      | none =>
        have : installOk p o t = true := by simp [installOk, hs]
        rw [this] at hbad; exact absurd hbad (by simp)
      | some e =>
        simp only [installToolsAux, hs, h, if_true, reduceIte]
        simp
    · cases hs : (installTool p o u).2 with
      | none =>
        simp only [installToolsAux, hs]
        have := ih (idx + 1) t hmem hbad
        simp only [List.append_assoc, List.mem_append]
        exact Or.inr (by simp [this])
      | some e =>
        simp only [installToolsAux, hs, h, if_true, reduceIte]
        have := ih (idx + 1) t hmem hbad
        simp only [List.append_assoc, List.mem_append]
        exact Or.inr (by simp [this])

lemma warnSkipped_mem_installTools (p : Flags) (o : Obs)
    (h : p.nonInteractive = true) (ts : List ToolName) (t : ToolName)
    (ht : t ∈ ts) (hbad : installOk p o t = false) :
    Event.spinnerInstallWarnSkipped t ∈ (installTools p o ts).1 :=
  warnSkipped_mem_installToolsAux p o ts.length h ts 0 t ht hbad

lemma checkMemory_none_iff (p : Flags) (o : Obs) :
    (checkMemory p o).2 = none ↔
      (o.memSufficient = true ∨ p.force = true ∨ p.nonInteractive = true ∨
        o.memConfirm = true) := by
  cases hms : o.memSufficient <;> cases hf : p.force <;> cases hni : p.nonInteractive <;>
    cases hmc : o.memConfirm <;> simp [checkMemory, hms, hf, hni, hmc]

lemma checkMemory_nonInteractive_none (p : Flags) (o : Obs)
    (h : p.nonInteractive = true) : (checkMemory p o).2 = none :=
  (checkMemory_none_iff p o).mpr (Or.inr (Or.inr (Or.inl h)))

lemma classify_installable_mem (o : Obs) :
    ∀ (ms : List ToolName) (t : ToolName),
      t ∈ (classify o ms).2.1 ↔
        t ∈ ms ∧ ¬(t = ToolName.docker ∧ o.dockerBinInstalled = true) := by
  intro ms
  induction ms with
  | nil => intro t; simp [classify]
  | cons u rest ih =>
    intro t
    by_cases hu : u = ToolName.docker
    · subst hu
      cases hb : o.dockerBinInstalled
      · simp only [classify, if_pos rfl, hb, Bool.false_eq_true, if_false, reduceIte]
        simp [List.mem_cons, ih, hb]
      · simp only [classify, if_pos rfl, hb, if_true, reduceIte]
        simp [List.mem_cons, ih, hb]
        tauto
    · simp only [classify, if_neg hu]
      simp only [List.mem_cons, ih]
      constructor
      · rintro (rfl | ⟨hm, hn⟩)
        · exact ⟨Or.inl rfl, by simp [hu]⟩
        · exact ⟨Or.inr hm, hn⟩
      · rintro ⟨(rfl | hm), hn⟩
        · exact Or.inl rfl
        · exact Or.inr ⟨hm, hn⟩

lemma classify_dormant_iff (o : Obs) :
    ∀ ms : List ToolName,
      (classify o ms).2.2 = true ↔
        (ToolName.docker ∈ ms ∧ o.dockerBinInstalled = true) := by
  intro ms
  induction ms with
  | nil => simp [classify]
  | cons u rest ih =>
    by_cases hu : u = ToolName.docker
    · subst hu
      cases hb : o.dockerBinInstalled
      · simp only [classify, if_pos rfl, hb, Bool.false_eq_true, if_false, reduceIte]
        rw [ih]
        simp [hb]
      · simp only [classify, if_pos rfl, hb, if_true, reduceIte]
        simp
    · simp only [classify, if_neg hu]
      rw [ih]
      constructor
      · rintro ⟨hm, hb⟩; exact ⟨List.mem_cons_of_mem _ hm, hb⟩
      · rintro ⟨hm, hb⟩
        rcases List.mem_cons.mp hm with rfl | hm
        · exact absurd rfl hu
        · exact ⟨hm, hb⟩

lemma installPhase_none_iff (p : Flags) (o : Obs) (inst : List ToolName) :
    (installPhase p o inst).2 = none ↔
      (inst.isEmpty = true ∨ p.nonInteractive = true ∨
        (o.installConfirm = true ∧ ∀ t ∈ inst, installOk p o t = true)) := by
  cases he : inst.isEmpty
  · cases hni : p.nonInteractive
    · cases hic : o.installConfirm
      · have lhs : (installPhase p o inst).2 = some PreflightError.prerequisitesNotInstalled := by
          simp only [installPhase, he, Bool.false_eq_true, if_false, hni, hic, reduceIte]
        refine iff_of_false (by rw [lhs]; simp) ?_
        rintro (h | h | ⟨h, _⟩) <;> exact absurd h (by simp)
      · cases hr : (installTools p o inst).2 with
        | none =>
          have hall := (installTools_none_iff p o inst).mp hr
          have hforall : ∀ t ∈ inst, installOk p o t = true := by
            rcases hall with hbad | hgood
            · rw [hni] at hbad; exact absurd hbad (by simp)
            · exact hgood
          have lhs : (installPhase p o inst).2 = none := by
            simp only [installPhase, he, Bool.false_eq_true, if_false, hni, hic, if_true,
              reduceIte, hr]
          exact iff_of_true lhs (Or.inr (Or.inr ⟨rfl, hforall⟩))
        | some e =>
          have lhs : (installPhase p o inst).2 = some e := by
            simp only [installPhase, he, Bool.false_eq_true, if_false, hni, hic, if_true,
              reduceIte, hr]
          refine iff_of_false (by rw [lhs]; simp) ?_
          rintro (h | h | ⟨_, h⟩)
          · exact absurd h (by simp)
          · exact absurd h (by simp)
          · have hn : (installTools p o inst).2 = none :=
              (installTools_none_iff p o inst).mpr (Or.inr h)
            rw [hr] at hn; exact absurd hn (by simp)
    · have lhs : (installPhase p o inst).2 = none := by
        simp only [installPhase, he, Bool.false_eq_true, if_false, hni, if_true, reduceIte]
        cases hr : (installTools p o inst).2 <;> simp
      exact iff_of_true lhs (Or.inr (Or.inl rfl))
  · have lhs : (installPhase p o inst).2 = none := by
      simp only [installPhase, he, if_true, reduceIte]
    exact iff_of_true lhs (Or.inl rfl)

lemma startDocker_none_iff (p : Flags) (o : Obs) :
    (startDocker p o).2 = none ↔
      (p.nonInteractive = true ∨
        (o.dockerConfirm = true ∧ o.dockerStartOk = true ∧ o.dockerWaitOk = true)) := by
  cases hni : p.nonInteractive <;> cases hc : o.dockerConfirm <;>
    cases hs : o.dockerStartOk <;> cases hw : o.dockerWaitOk <;>
      simp [startDocker, hni, hc, hs, hw]

lemma mem_scan_missing (o : Obs) (order : List ToolName) (t : ToolName) :
    t ∈ (scanTools o order).2 ↔ (t ∈ order ∧ isInstalled o t = false) := by
  simp [scanTools, List.mem_filter]

lemma scan_missing_isEmpty (o : Obs) (order : List ToolName) :
    (scanTools o order).2.isEmpty = true ↔ ∀ t ∈ order, isInstalled o t = true := by
  rw [List.isEmpty_iff]
  constructor
  · intro h t ht
    by_contra hn
    have : t ∈ (scanTools o order).2 :=
      (mem_scan_missing o order t).mpr ⟨ht, by simpa using hn⟩
    rw [h] at this
    exact absurd this (List.not_mem_nil t)
  · intro h
    rcases List.eq_nil_or_concat (scanTools o order).2 with hnil | ⟨l, u, hc⟩
    · exact hnil
    · exfalso
      have hu : u ∈ (scanTools o order).2 := by rw [hc]; simp
      rcases (mem_scan_missing o order u).mp hu with ⟨hor, hni⟩
      rw [h u hor] at hni
      exact absurd hni (by simp)

lemma checkAllWith_none_iff (p : Flags) (o : Obs) (order : List ToolName) :
    (checkAllWith p o order).2 = none ↔
      ((checkMemory p o).2 = none ∧
       ((∀ t ∈ order, ¬instProp o t) ∨ p.nonInteractive = true ∨
          (o.installConfirm = true ∧ ∀ t ∈ order, instProp o t → installOk p o t = true)) ∧
       ((ToolName.docker ∈ order ∧ o.dockerRunning = false ∧ o.dockerBinInstalled = true) →
          (startDocker p o).2 = none)) := by
  have instMem : ∀ t, t ∈ (classify o (scanTools o order).2).2.1 ↔
      (t ∈ order ∧ instProp o t) := by
    intro t
    rw [classify_installable_mem, mem_scan_missing]
    unfold instProp
    tauto
  have dormIff : (classify o (scanTools o order).2).2.2 = true ↔
      (ToolName.docker ∈ order ∧ o.dockerRunning = false ∧ o.dockerBinInstalled = true) := by
    rw [classify_dormant_iff, mem_scan_missing]
    have hrw : isInstalled o ToolName.docker = o.dockerRunning := rfl
    rw [hrw]
    tauto
  have instEmpty : (classify o (scanTools o order).2).2.1.isEmpty = true ↔
      (∀ t ∈ order, ¬instProp o t) := by
    rw [List.isEmpty_iff, List.eq_nil_iff_forall_not_mem]
    constructor
    · intro h t ht hp
      exact h t ((instMem t).mpr ⟨ht, hp⟩)
    · intro h t ht
      rcases (instMem t).mp ht with ⟨h1, h2⟩
      exact h t h1 h2
  have ipIff : (installPhase p o (classify o (scanTools o order).2).2.1).2 = none ↔
      ((∀ t ∈ order, ¬instProp o t) ∨ p.nonInteractive = true ∨
        (o.installConfirm = true ∧ ∀ t ∈ order, instProp o t → installOk p o t = true)) := by
    rw [installPhase_none_iff, instEmpty]
    constructor
    · rintro (h | h | ⟨h1, h2⟩)
      · exact Or.inl h
      · exact Or.inr (Or.inl h)
      · refine Or.inr (Or.inr ⟨h1, ?_⟩)
        intro t ht hp
        exact h2 t ((instMem t).mpr ⟨ht, hp⟩)
    · rintro (h | h | ⟨h1, h2⟩)
      · exact Or.inl h
      · exact Or.inr (Or.inl h)
      · refine Or.inr (Or.inr ⟨h1, ?_⟩)
        intro t ht
        rcases (instMem t).mp ht with ⟨ha, hb⟩
        exact h2 t ha hb
  cases hm : (checkMemory p o).2 with
  | some e =>
    have lhs : (checkAllWith p o order).2 = some e := by
      simp only [checkAllWith, hm]
    rw [lhs]
    simp
  | none =>
    cases hme : (scanTools o order).2.isEmpty with
    | true =>
      have hall := (scan_missing_isEmpty o order).mp hme
      have lhs : (checkAllWith p o order).2 = none := by
        simp only [checkAllWith, hm, hme, if_true, reduceIte]
      rw [lhs]
      refine iff_of_true rfl ⟨rfl, Or.inl ?_, ?_⟩
      · rintro t ht ⟨hni, _⟩
        rw [hall t ht] at hni
        exact absurd hni (by simp)
      · rintro ⟨hd, hr, _⟩
        have hinst : isInstalled o ToolName.docker = true := hall _ hd
        have : o.dockerRunning = true := hinst
        rw [hr] at this
        exact absurd this (by simp)
    | false =>
      cases hip : (installPhase p o (classify o (scanTools o order).2).2.1).2 with
      | some e =>
        have lhs : (checkAllWith p o order).2 = some e := by
          simp only [checkAllWith, hm, hme, Bool.false_eq_true, if_false, reduceIte, hip]
        rw [lhs]
        refine iff_of_false (by simp) ?_
        rintro ⟨_, h2, _⟩
        have hn := ipIff.mpr h2
        rw [hip] at hn
        exact absurd hn (by simp)
      | none =>
        cases hd : (classify o (scanTools o order).2).2.2 with
        | false =>
          have lhs : (checkAllWith p o order).2 = none := by
            simp only [checkAllWith, hm, hme, Bool.false_eq_true, if_false, reduceIte, hip, hd]
          rw [lhs]
          refine iff_of_true rfl ⟨rfl, ipIff.mp hip, ?_⟩
          intro hprem
          have hdorm := dormIff.mpr hprem
          rw [hd] at hdorm
          exact absurd hdorm (by simp)
        | true =>
          have lhs : (checkAllWith p o order).2 = (startDocker p o).2 := by
            simp only [checkAllWith, hm, hme, Bool.false_eq_true, if_false, reduceIte, hip,
              hd, if_true]
          rw [lhs]
          constructor
          · intro h
            exact ⟨rfl, ipIff.mp hip, fun _ => h⟩
          · rintro ⟨_, _, h3⟩
            exact h3 (dormIff.mp hd)

lemma checkAll_none_iff (p : Flags) (o : Obs) :
    (checkAll p o).2 = none ↔
      ((checkMemory p o).2 = none ∧
       ((∀ t ∈ toolCatalog, ¬instProp o t) ∨ p.nonInteractive = true ∨
          (o.installConfirm = true ∧
            ∀ t ∈ toolCatalog, instProp o t → installOk p o t = true)) ∧
       ((ToolName.docker ∈ toolCatalog ∧ o.dockerRunning = false ∧
           o.dockerBinInstalled = true) → (startDocker p o).2 = none)) :=
  checkAllWith_none_iff p o toolCatalog

lemma checkAll_nonInteractive_none (p : Flags) (o : Obs)
    (h : p.nonInteractive = true) : (checkAll p o).2 = none := by
  rw [checkAll_none_iff]
  exact ⟨checkMemory_nonInteractive_none p o h, Or.inr (Or.inl h),
    fun _ => (startDocker_none_iff p o).mpr (Or.inl h)⟩

lemma checkAllWith_memErr (p : Flags) (o : Obs) (order : List ToolName) (e : PreflightError)
    (h : (checkMemory p o).2 = some e) :
    checkAllWith p o order = ((checkMemory p o).1, some e) := by
  simp only [checkAllWith, h]

lemma checkAllWith_trace_mem_front (p : Flags) (o : Obs) (order : List ToolName) :
    ∃ rest, (checkAllWith p o order).1 = (checkMemory p o).1 ++ rest := by
  cases hm : (checkMemory p o).2 with
  | some e =>
    exact ⟨[], by rw [checkAllWith_memErr p o order e hm]; simp⟩
  | none =>
    cases hme : (scanTools o order).2.isEmpty with
    | true =>
      exact ⟨(scanTools o order).1, by simp only [checkAllWith, hm, hme, if_true, reduceIte]⟩
    | false =>
      cases hip : (installPhase p o (classify o (scanTools o order).2).2.1).2 with
      | some e =>
        refine ⟨(scanTools o order).1 ++ (classify o (scanTools o order).2).1 ++
          (installPhase p o (classify o (scanTools o order).2).2.1).1, ?_⟩
        simp only [checkAllWith, hm, hme, Bool.false_eq_true, if_false, reduceIte, hip,
          List.append_assoc]
      | none =>
        cases hd : (classify o (scanTools o order).2).2.2 with
        | false =>
          refine ⟨(scanTools o order).1 ++ (classify o (scanTools o order).2).1 ++
            (installPhase p o (classify o (scanTools o order).2).2.1).1, ?_⟩
          simp only [checkAllWith, hm, hme, Bool.false_eq_true, if_false, reduceIte, hip, hd,
            List.append_assoc]
        | true =>
          refine ⟨(scanTools o order).1 ++ (classify o (scanTools o order).2).1 ++
            (installPhase p o (classify o (scanTools o order).2).2.1).1 ++
            (startDocker p o).1, ?_⟩
          simp only [checkAllWith, hm, hme, Bool.false_eq_true, if_false, reduceIte, hip, hd,
            if_true, List.append_assoc]

lemma checkMemory_no_action (p : Flags) (o : Obs) :
    ∀ e ∈ (checkMemory p o).1, isActionEvent e = false := by
  intro e he
  unfold checkMemory at he
  split_ifs at he <;> simp only [List.append_assoc, List.cons_append, List.nil_append] at he <;>
    fin_cases he <;> rfl

lemma checkMemory_promptFree (p : Flags) (o : Obs) (h : p.nonInteractive = true) :
    promptFree (checkMemory p o).1 := by
  intro e he
  unfold checkMemory at he
  split_ifs at he
  all_goals first
    | exact absurd he (List.not_mem_nil e)
    | exact absurd h ‹¬p.nonInteractive = true›
    | (simp only [List.append_assoc, List.cons_append, List.nil_append] at he;
       fin_cases he <;> rfl)

lemma scan_promptFree (o : Obs) (order : List ToolName) :
    promptFree (scanTools o order).1 := by
  intro e he
  rcases List.mem_map.mp he with ⟨t, _, rfl⟩
  rfl

lemma classify_promptFree (o : Obs) :
    ∀ ms : List ToolName, promptFree (classify o ms).1 := by
  intro ms
  induction ms with
  | nil => intro e he; exact absurd he (List.not_mem_nil e)
  | cons u rest ih =>
    intro e he
    by_cases hu : u = ToolName.docker
    · subst hu
      cases hb : o.dockerBinInstalled <;>
        simp only [classify, if_pos rfl, hb, Bool.false_eq_true, if_false, if_true, reduceIte,
          List.mem_cons] at he <;>
        (rcases he with rfl | he
         · rfl
         · exact ih e he)
    · simp only [classify, if_neg hu] at he
      exact ih e he

lemma installTool_promptFree (p : Flags) (o : Obs) (t : ToolName) :
    promptFree (installTool p o t).1 := by
  intro e he
  cases t <;> cases hp : p.nonInteractive <;>
    simp only [installTool, hp, Bool.false_eq_true, if_false, if_true, reduceIte,
      List.mem_cons, List.not_mem_nil, or_false] at he <;>
    first
      | exact absurd he (by simp)
      | (subst he; rfl)

lemma installToolsAux_promptFree (p : Flags) (o : Obs) (total : Nat) :
    ∀ (ts : List ToolName) (idx : Nat), promptFree (installToolsAux p o total idx ts).1 := by
  intro ts
  induction ts with
  | nil => intro idx e he; exact absurd he (List.not_mem_nil e)
  | cons t rest ih =>
    intro idx e he
    cases hs : (installTool p o t).2 with
    | none =>
      simp only [installToolsAux, hs, List.append_assoc, List.cons_append, List.nil_append,
        List.mem_cons, List.mem_append] at he
      rcases he with rfl | he | rfl | he
      · rfl
      · exact installTool_promptFree p o t e he
      · rfl
      · exact ih (idx + 1) e he
    | some er =>
      cases hni : p.nonInteractive with
      | true =>
        simp only [installToolsAux, hs, hni, if_true, reduceIte, List.append_assoc,
          List.cons_append, List.nil_append, List.mem_cons, List.mem_append] at he
        rcases he with rfl | he | rfl | he
        · rfl
        · exact installTool_promptFree p o t e he
        · rfl
        · exact ih (idx + 1) e he
      | false =>
        simp only [installToolsAux, hs, hni, Bool.false_eq_true, if_false, reduceIte,
          List.append_assoc, List.cons_append, List.nil_append, List.mem_cons,
          List.mem_append, List.mem_singleton, List.not_mem_nil, or_false] at he
        rcases he with rfl | he | rfl
        · rfl
        · exact installTool_promptFree p o t e he
        · rfl

lemma installPhase_promptFree (p : Flags) (o : Obs) (inst : List ToolName)
    (h : p.nonInteractive = true) : promptFree (installPhase p o inst).1 := by
  intro e he
  cases hne : inst.isEmpty with
  | true =>
    simp only [installPhase, hne, if_true, reduceIte] at he
    exact absurd he (List.not_mem_nil e)
  | false =>
    simp only [installPhase, hne, Bool.false_eq_true, if_false, reduceIte, h, if_true] at he
    cases hr : (installTools p o inst).2 with
    | none =>
      rw [hr] at he
      simp only [List.append_assoc, List.cons_append, List.nil_append, List.mem_cons,
        List.mem_append] at he
      rcases he with rfl | rfl | he
      · rfl
      · rfl
      · exact installToolsAux_promptFree p o inst.length inst 0 e he
    | some er =>
      rw [hr] at he
      simp only [List.append_assoc, List.cons_append, List.nil_append, List.mem_cons,
        List.mem_append, List.mem_singleton, List.not_mem_nil, or_false] at he
      rcases he with rfl | rfl | he | rfl | rfl
      · rfl
      · rfl
      · exact installToolsAux_promptFree p o inst.length inst 0 e he
      · rfl
      · rfl

lemma startDocker_promptFree (p : Flags) (o : Obs) (h : p.nonInteractive = true) :
    promptFree (startDocker p o).1 := by
  intro e he
  simp only [startDocker, h, if_true, reduceIte] at he
  cases hs : o.dockerStartOk <;> cases hw : o.dockerWaitOk <;>
    (rw [hs] at he; try rw [hw] at he) <;>
    simp only [Bool.not_true, Bool.not_false, Bool.false_eq_true, if_false, if_true, reduceIte,
      List.append_assoc, List.cons_append, List.nil_append] at he <;>
    fin_cases he <;> rfl

lemma checkAllWith_promptFree (p : Flags) (o : Obs) (order : List ToolName)
    (h : p.nonInteractive = true) : promptFree (checkAllWith p o order).1 := by
  cases hm : (checkMemory p o).2 with
  | some e =>
    rw [checkAllWith_memErr p o order e hm]
    exact checkMemory_promptFree p o h
  | none =>
    cases hme : (scanTools o order).2.isEmpty with
    | true =>
      have lhs : (checkAllWith p o order).1 =
          (checkMemory p o).1 ++ (scanTools o order).1 := by
        simp only [checkAllWith, hm, hme, if_true, reduceIte]
      rw [lhs]
      exact promptFree_append (checkMemory_promptFree p o h) (scan_promptFree o order)
    | false =>
      have base : promptFree ((checkMemory p o).1 ++ (scanTools o order).1 ++
          (classify o (scanTools o order).2).1 ++
          (installPhase p o (classify o (scanTools o order).2).2.1).1) :=
        promptFree_append
          (promptFree_append
            (promptFree_append (checkMemory_promptFree p o h) (scan_promptFree o order))
            (classify_promptFree o _))
          (installPhase_promptFree p o _ h)
      cases hip : (installPhase p o (classify o (scanTools o order).2).2.1).2 with
      | some e =>
        have lhs : (checkAllWith p o order).1 =
            (checkMemory p o).1 ++ (scanTools o order).1 ++
            (classify o (scanTools o order).2).1 ++
            (installPhase p o (classify o (scanTools o order).2).2.1).1 := by
          simp only [checkAllWith, hm, hme, Bool.false_eq_true, if_false, reduceIte, hip]
        rw [lhs]
        exact base
      | none =>
        cases hd : (classify o (scanTools o order).2).2.2 with
        | false =>
          have lhs : (checkAllWith p o order).1 =
              (checkMemory p o).1 ++ (scanTools o order).1 ++
              (classify o (scanTools o order).2).1 ++
              (installPhase p o (classify o (scanTools o order).2).2.1).1 := by
            simp only [checkAllWith, hm, hme, Bool.false_eq_true, if_false, reduceIte, hip, hd]
          rw [lhs]
          exact base
        | true =>
          have lhs : (checkAllWith p o order).1 =
              (checkMemory p o).1 ++ (scanTools o order).1 ++
              (classify o (scanTools o order).2).1 ++
              (installPhase p o (classify o (scanTools o order).2).2.1).1 ++
              (startDocker p o).1 := by
            simp only [checkAllWith, hm, hme, Bool.false_eq_true, if_false, reduceIte, hip,
              hd, if_true]
          rw [lhs]
          exact promptFree_append base (startDocker_promptFree p o h)

lemma mem_checkAllWith_of_mem_installPhase (p : Flags) (o : Obs) (order : List ToolName)
    (hm : (checkMemory p o).2 = none) (hme : (scanTools o order).2.isEmpty = false)
    (e : Event) (he : e ∈ (installPhase p o (classify o (scanTools o order).2).2.1).1) :
    e ∈ (checkAllWith p o order).1 := by
  cases hip : (installPhase p o (classify o (scanTools o order).2).2.1).2 with
  | some er =>
    have lhs : (checkAllWith p o order).1 =
        (checkMemory p o).1 ++ (scanTools o order).1 ++
        (classify o (scanTools o order).2).1 ++
        (installPhase p o (classify o (scanTools o order).2).2.1).1 := by
      simp only [checkAllWith, hm, hme, Bool.false_eq_true, if_false, reduceIte, hip]
    rw [lhs]
    simp only [List.mem_append]
    exact Or.inr he
  | none =>
    cases hd : (classify o (scanTools o order).2).2.2 with
    | false =>
      have lhs : (checkAllWith p o order).1 =
          (checkMemory p o).1 ++ (scanTools o order).1 ++
          (classify o (scanTools o order).2).1 ++
          (installPhase p o (classify o (scanTools o order).2).2.1).1 := by
        simp only [checkAllWith, hm, hme, Bool.false_eq_true, if_false, reduceIte, hip, hd]
      rw [lhs]
      simp only [List.mem_append]
      exact Or.inr he
    | true =>
      have lhs : (checkAllWith p o order).1 =
          (checkMemory p o).1 ++ (scanTools o order).1 ++
          (classify o (scanTools o order).2).1 ++
          (installPhase p o (classify o (scanTools o order).2).2.1).1 ++
          (startDocker p o).1 := by
        simp only [checkAllWith, hm, hme, Bool.false_eq_true, if_false, reduceIte, hip,
          hd, if_true]
      rw [lhs]
      simp only [List.mem_append]
      exact Or.inl (Or.inr he)

lemma mem_installPhase_of_mem_installTools (p : Flags) (o : Obs) (inst : List ToolName)
    (h : p.nonInteractive = true) (hne : inst.isEmpty = false) (e : Event)
    (he : e ∈ (installTools p o inst).1) : e ∈ (installPhase p o inst).1 := by
  simp only [installPhase, hne, Bool.false_eq_true, if_false, reduceIte, h, if_true]
  cases hr : (installTools p o inst).2 with
  | none => simp [List.mem_append, he]
  | some er => simp [List.mem_append, he]

lemma git_mem_installable (o : Obs) (hg : o.gitInstalled = false) :
    ToolName.git ∈ (classify o (scanTools o toolCatalog).2).2.1 := by
  rw [classify_installable_mem, mem_scan_missing]
  exact ⟨⟨by decide, hg⟩, fun hc => ToolName.noConfusion hc.1⟩

lemma isEmpty_false_of_mem {α : Type} {l : List α} {a : α} (h : a ∈ l) :
    l.isEmpty = false := by
  cases l with
  | nil => exact absurd h (List.not_mem_nil a)
  | cons x xs => rfl

end OpenframePreflight

namespace OpenframeCmd

/-- Flag value kinds used by the bootstrap command registration. -/
inductive FlagType
  | stringFlag
  | boolFlag
deriving DecidableEq, Repr

/-- One registered cobra flag: long name, optional shorthand, value kind. -/
structure FlagDef where
  name : String
  shorthand : Option String
  ftype : FlagType
deriving DecidableEq, Repr

/-- The flags registered on the bootstrap command by `GetBootstrapCmd`
(`cmd/bootstrap/bootstrap.go`, lines 38-45), in registration order. -/
def bootstrapFlags : List FlagDef :=
  [⟨"deployment-mode", none, .stringFlag⟩,
   ⟨"non-interactive", none, .boolFlag⟩,
   ⟨"verbose", some "v", .boolFlag⟩,
   ⟨"force", none, .boolFlag⟩,
   ⟨"repo", none, .stringFlag⟩,
   ⟨"branch", none, .stringFlag⟩]

/-- `Args: cobra.MaximumNArgs(1)`: at most one positional argument. -/
def bootstrapMaxPositionalArgs : Nat := 1

/-- Whether a long flag name is registered on the bootstrap command. -/
def flagRegistered (n : String) : Bool :=
  bootstrapFlags.any fun f => f.name == n

end OpenframeCmd

namespace OpenframePreflight

/-- Baseline observation record: sufficient memory, every probe passing,
every installer succeeding, every confirmation answered yes. Concrete
scenarios below override individual fields. -/
def obsBase : Obs :=
  { memCurrent := 32000, memRecommended := 24000, memSufficient := true
    dockerRunning := true, dockerBinInstalled := true
    kubectlInstalled := true, k3dInstalled := true, helmInstalled := true
    gitInstalled := true, certsInstalled := true
    dockerInstallOk := true, kubectlInstallOk := true, k3dInstallOk := true
    helmInstallOk := true, certsInstallOk := true
    memConfirm := true, installConfirm := true, dockerConfirm := true
    dockerStartOk := true, dockerWaitOk := true }

/-- Non-interactive run flags. -/
def flagsNI : Flags := { nonInteractive := true, force := false, verbose := false }

/-- Interactive run flags. -/
def flagsInteractive : Flags := { nonInteractive := false, force := false, verbose := false }

/-- Scenario: kubectl missing and its installer failing. -/
def obsKubectlBad : Obs := { obsBase with kubectlInstalled := false, kubectlInstallOk := false }

/-- Scenario: kubectl missing (installer would succeed). -/
def obsKubectlMissing : Obs := { obsBase with kubectlInstalled := false }

/-- Scenario: insufficient memory, confirmation declined. -/
def obsLowMemDecline : Obs :=
  { obsBase with memCurrent := 18000, memSufficient := false, memConfirm := false }

/-- Scenario: Git missing, interactive consent declined. -/
def obsGitDecline : Obs := { obsBase with gitInstalled := false, installConfirm := false }

/-- Scenario: Docker dormant (daemon down, binary installed), start attempt fails. -/
def obsDormantStartFail : Obs := { obsBase with dockerRunning := false, dockerStartOk := false }

/-- Scenario: Docker dormant, start confirmation declined. -/
def obsDormantDecline : Obs := { obsBase with dockerRunning := false, dockerConfirm := false }

/-- Scenario: Docker dormant, nothing else wrong. -/
def obsDormant : Obs := { obsBase with dockerRunning := false }

/-- Scenario exercising many non-interactive paths at once: low memory,
several tools missing with failing installers, Git missing, Docker dormant
with a failing start. -/
def obsStress : Obs :=
  { obsBase with
    memSufficient := false
    dockerRunning := false
    kubectlInstalled := false
    kubectlInstallOk := false
    gitInstalled := false
    certsInstalled := false
    dockerStartOk := false }

/-- The tool catalog in reverse order, a concrete permutation. -/
def reversedCatalog : List ToolName :=
  [.certificates, .git, .helm, .k3d, .kubectl, .docker]

lemma showManual_mem_installPhase (p : Flags) (o : Obs) (inst : List ToolName)
    (hni : p.nonInteractive = false) (hne : inst.isEmpty = false)
    (hic : o.installConfirm = false) :
    Event.showManualInstructions inst ∈ (installPhase p o inst).1 := by
  simp only [installPhase, hne, Bool.false_eq_true, if_false, reduceIte, hni, hic]
  simp

/-- C1 (amended): when Git is missing, the interactive gate always aborts
(returns an error); if moreover the memory check passed and the user
declines the install consent, the manual-instruction table — listing Git —
is shown before the abort; the Git pseudo-installer's result is always the
git-not-installed error, whose message carries the manual instructions, so
an abort caused by reaching Git's installer surfaces them. The
non-interactive gate instead downgrades the Git failure to a skip warning
(whose message carries the manual instructions) and returns success. -/
theorem git_missing_gate_policy (p : Flags) (o : Obs) :
    (p.nonInteractive = false → o.gitInstalled = false → (checkAll p o).2 ≠ none) ∧
    (p.nonInteractive = false → o.gitInstalled = false → (checkMemory p o).2 = none →
      o.installConfirm = false →
      Event.showManualInstructions (classify o (scanTools o toolCatalog).2).2.1 ∈
        (checkAll p o).1 ∧
      ToolName.git ∈ (classify o (scanTools o toolCatalog).2).2.1) ∧
    ((installTool p o ToolName.git).2 = some InstallErr.gitNotInstalled) ∧
    (p.nonInteractive = true → (checkAll p o).2 = none ∧
      (o.gitInstalled = false →
        Event.spinnerInstallWarnSkipped ToolName.git ∈ (checkAll p o).1)) := by
  refine ⟨?_, ?_, rfl, ?_⟩
  · intro hni hg hnone
    rcases (checkAll_none_iff p o).mp hnone with ⟨_, h2, _⟩
    rcases h2 with h | h | ⟨_, h⟩
    · exact h ToolName.git (by decide) ⟨hg, fun hc => ToolName.noConfusion hc.1⟩
    · rw [hni] at h; exact absurd h (by simp)
    · have hbad := h ToolName.git (by decide) ⟨hg, fun hc => ToolName.noConfusion hc.1⟩
      rw [installOk_git] at hbad
      exact absurd hbad (by simp)
  · intro hni hg hm hic
    have hgit := git_mem_installable o hg
    have hne := isEmpty_false_of_mem hgit
    have hmesc : (scanTools o toolCatalog).2.isEmpty = false :=
      isEmpty_false_of_mem
        ((mem_scan_missing o toolCatalog ToolName.git).mpr ⟨by decide, hg⟩)
    have hmemIP := showManual_mem_installPhase p o _ hni hne hic
    exact ⟨mem_checkAllWith_of_mem_installPhase p o toolCatalog hm hmesc _ hmemIP, hgit⟩
  · intro hni
    refine ⟨checkAll_nonInteractive_none p o hni, ?_⟩
    intro hg
    have hgit := git_mem_installable o hg
    have hne := isEmpty_false_of_mem hgit
    have hwarn := warnSkipped_mem_installTools p o hni _ ToolName.git hgit (installOk_git p o)
    have hip := mem_installPhase_of_mem_installTools p o _ hni hne _ hwarn
    have hmm := checkMemory_nonInteractive_none p o hni
    have hmesc : (scanTools o toolCatalog).2.isEmpty = false :=
      isEmpty_false_of_mem
        ((mem_scan_missing o toolCatalog ToolName.git).mpr ⟨by decide, hg⟩)
    exact mem_checkAllWith_of_mem_installPhase p o toolCatalog hmm hmesc _ hip

/-- C1 (witness): in an interactive run with Git missing the gate returns an
error, and on the declined-consent path the manual-instruction table listing
Git is shown. -/
theorem git_missing_gate_policy_witness :
    (checkAll flagsInteractive obsGitDecline).2 ≠ none ∧
    Event.showManualInstructions
        (classify obsGitDecline (scanTools obsGitDecline toolCatalog).2).2.1 ∈
      (checkAll flagsInteractive obsGitDecline).1 ∧
    ToolName.git ∈ (classify obsGitDecline (scanTools obsGitDecline toolCatalog).2).2.1 := by
  refine ⟨?_, ?_, ?_⟩
  · exact (git_missing_gate_policy flagsInteractive obsGitDecline).1 rfl rfl
  · exact ((git_missing_gate_policy flagsInteractive obsGitDecline).2.1 rfl rfl
      (by decide) rfl).1
  · exact ((git_missing_gate_policy flagsInteractive obsGitDecline).2.1 rfl rfl
      (by decide) rfl).2

/-- C1 (counterexample): a non-interactive run in which only Git is missing
returns no error — the gate does not abort, contradicting the claim that a
missing Git aborts regardless of mode. The Git failure is only surfaced as
a skip warning. -/
theorem git_missing_gate_policy_cex :
    (checkAll flagsNI { obsBase with gitInstalled := false }).2 = none ∧
    Event.spinnerInstallWarnSkipped ToolName.git ∈
      (checkAll flagsNI { obsBase with gitInstalled := false }).1 := by
  decide

/-- C3: with consent given, `installTools` in non-interactive mode never
returns an error, starts an install attempt for every listed tool, and
reports each failing tool with a skip warning (and the whole gate returns
success); in interactive mode the first failing tool in the list makes it
return the corresponding wrapped error immediately, with install attempts
started exactly for the preceding tools and the failing one. -/
theorem install_failure_policy (p : Flags) (o : Obs) (ts : List ToolName) :
    (p.nonInteractive = true →
      (installTools p o ts).2 = none ∧
      startedTools (installTools p o ts).1 = ts ∧
      (∀ t ∈ ts, installOk p o t = false →
        Event.spinnerInstallWarnSkipped t ∈ (installTools p o ts).1) ∧
      (checkAll p o).2 = none) ∧
    (p.nonInteractive = false →
      ∀ pre t post, ts = pre ++ t :: post →
        (∀ u ∈ pre, installOk p o u = true) → installOk p o t = false →
        (∃ e, (installTool p o t).2 = some e ∧
          (installTools p o ts).2 = some (.installFailed t e)) ∧
        startedTools (installTools p o ts).1 = pre ++ [t]) := by
  constructor
  · intro h
    refine ⟨(installTools_none_iff p o ts).mpr (Or.inl h), ?_, ?_,
      checkAll_nonInteractive_none p o h⟩
    · rw [startedTools_installTools, attemptedList_nonInteractive p o h]
    · intro t ht hf
      exact warnSkipped_mem_installTools p o h ts t ht hf
  · intro h pre t post hts hpre hf
    have hsome : ∃ e, (installTool p o t).2 = some e := by
      cases hs : (installTool p o t).2 with
      | none =>
        have hgood : installOk p o t = true := by simp [installOk, hs]
        rw [hf] at hgood
        exact absurd hgood (by simp)
      | some e => exact ⟨e, rfl⟩
    rcases hsome with ⟨e, he⟩
    subst hts
    refine ⟨⟨e, he, installToolsAux_firstFail p o _ h pre t post e 0 hpre he⟩, ?_⟩
    rw [startedTools_installTools, attemptedList_firstFail p o h pre t post hpre hf]

/-- C3 (witness): with kubectl's installer failing, non-interactive install
succeeds overall while interactive install fails with the wrapped kubectl
error. -/
theorem install_failure_policy_witness :
    (installTools flagsNI obsKubectlBad [ToolName.kubectl]).2 = none ∧
    (installTools flagsInteractive obsKubectlBad [ToolName.kubectl]).2 =
      some (.installFailed ToolName.kubectl .installerFailed) := by
  constructor
  · exact ((install_failure_policy flagsNI obsKubectlBad [ToolName.kubectl]).1 rfl).1
  · have happ :=
      (install_failure_policy flagsInteractive obsKubectlBad [ToolName.kubectl]).2 rfl
        [] ToolName.kubectl [] rfl
        (fun u hu => absurd hu (List.not_mem_nil u)) (by decide)
    rcases happ with ⟨⟨e, he, h2⟩, _⟩
    have hee : (installTool flagsInteractive obsKubectlBad ToolName.kubectl).2 =
        some InstallErr.installerFailed := by decide
    have := (Option.some.inj (hee.symm.trans he)).symm
    subst this
    exact h2

/-- C4: the memory check returns success with an empty trace when the
reading is sufficient; otherwise it warns and then continues under `force`,
then under non-interactive mode; otherwise it prompts (default no) and a
declined confirmation yields the insufficient-memory error while an
accepted one yields success. -/
theorem memory_check_policy (p : Flags) (o : Obs) :
    (o.memSufficient = true → checkMemory p o = ([], none)) ∧
    (o.memSufficient = false → p.force = true →
      checkMemory p o =
        ([Event.warnMemory o.memCurrent o.memRecommended, Event.infoForceContinue], none)) ∧
    (o.memSufficient = false → p.force = false → p.nonInteractive = true →
      checkMemory p o =
        ([Event.warnMemory o.memCurrent o.memRecommended,
          Event.infoNonInteractiveContinue], none)) ∧
    (o.memSufficient = false → p.force = false → p.nonInteractive = false →
      (checkMemory p o).1 =
        [Event.warnMemory o.memCurrent o.memRecommended, Event.infoChartsMayFail,
         Event.prompt PromptKind.memContinue false] ∧
      (o.memConfirm = false →
        (checkMemory p o).2 = some (.insufficientMemory o.memCurrent o.memRecommended)) ∧
      (o.memConfirm = true → (checkMemory p o).2 = none)) := by
  refine ⟨?_, ?_, ?_, ?_⟩
  · intro h1; simp [checkMemory, h1]
  · intro h1 h2; simp [checkMemory, h1, h2]
  · intro h1 h2 h3; simp [checkMemory, h1, h2, h3]
  · intro h1 h2 h3
    refine ⟨?_, ?_, ?_⟩
    · cases hmc : o.memConfirm <;> simp [checkMemory, h1, h2, h3, hmc]
    · intro hmc; simp [checkMemory, h1, h2, h3, hmc]
    · intro hmc; simp [checkMemory, h1, h2, h3, hmc]

/-- C4 (witness): a low-memory interactive run with a declined confirmation
returns the insufficient-memory error. -/
theorem memory_check_policy_witness :
    (checkMemory flagsInteractive obsLowMemDecline).2 =
      some (.insufficientMemory 18000 24000) :=
  ((memory_check_policy flagsInteractive obsLowMemDecline).2.2.2 rfl rfl rfl).2.1 rfl

/-- C5: the preflight trace starts with the memory check's trace, the memory
check performs no tool probe, installer, or Docker start/wait action, and a
memory-check error makes the whole pass return exactly that error with no
further action (the trace is the memory check's trace alone). -/
theorem memory_check_first (p : Flags) (o : Obs) :
    (∃ rest, (checkAll p o).1 = (checkMemory p o).1 ++ rest) ∧
    (∀ e ∈ (checkMemory p o).1, isActionEvent e = false) ∧
    (∀ err, (checkMemory p o).2 = some err →
      checkAll p o = ((checkMemory p o).1, some err)) := by
  refine ⟨checkAllWith_trace_mem_front p o toolCatalog, checkMemory_no_action p o, ?_⟩
  intro err herr
  exact checkAllWith_memErr p o toolCatalog err herr

/-- C5 (witness): when the memory check fails, the pass is exactly the
memory check's trace plus its error. -/
theorem memory_check_first_witness :
    checkAll flagsInteractive obsLowMemDecline =
      ((checkMemory flagsInteractive obsLowMemDecline).1,
        some (.insufficientMemory 18000 24000)) :=
  (memory_check_first flagsInteractive obsLowMemDecline).2.2 _ (by decide)

/-- C6 (amended): in non-interactive mode a Docker start or readiness-wait
failure is downgraded to a warning and the step succeeds; in interactive
mode the user is asked first, a declined confirmation returns the
`Docker is not running` error after the platform-specific instructions,
a failed start returns an error after a generic "start Docker Desktop
manually" message (not the platform-specific instruction table), and a
failed readiness wait returns an error with no instructions. -/
theorem docker_start_policy (p : Flags) (o : Obs) :
    (p.nonInteractive = true →
      (startDocker p o).2 = none ∧
      (o.dockerStartOk = false → Event.warnCouldNotStart ∈ (startDocker p o).1) ∧
      (o.dockerStartOk = true → o.dockerWaitOk = false →
        Event.spinnerWarnDockerStartFailed ∈ (startDocker p o).1)) ∧
    (p.nonInteractive = false →
      (List.take 2 (startDocker p o).1 =
        [Event.warnDockerNotRunning, Event.prompt PromptKind.dockerStart true]) ∧
      (o.dockerConfirm = false →
        (startDocker p o).2 = some .dockerNotRunning ∧
        Event.showPlatformStartInstructions ∈ (startDocker p o).1) ∧
      (o.dockerConfirm = true → o.dockerStartOk = false →
        (startDocker p o).2 = some .failedToStartDocker ∧
        Event.showPlatformStartInstructions ∉ (startDocker p o).1 ∧
        Event.infoStartDockerDesktopManually ∈ (startDocker p o).1) ∧
      (o.dockerConfirm = true → o.dockerStartOk = true → o.dockerWaitOk = false →
        (startDocker p o).2 = some .dockerFailedToStart)) := by
  constructor
  · intro h
    refine ⟨(startDocker_none_iff p o).mpr (Or.inl h), ?_, ?_⟩
    · intro hs; simp [startDocker, h, hs]
    · intro hs hw; simp [startDocker, h, hs, hw]
  · intro h
    refine ⟨?_, ?_, ?_, ?_⟩
    · cases hc : o.dockerConfirm <;> cases hs : o.dockerStartOk <;>
        cases hw : o.dockerWaitOk <;> simp [startDocker, h, hc, hs, hw]
    · intro hc
      constructor <;> simp [startDocker, h, hc]
    · intro hc hs
      refine ⟨?_, ?_, ?_⟩ <;> simp [startDocker, h, hc, hs]
    · intro hc hs hw
      simp [startDocker, h, hc, hs, hw]

/-- C6 (witness): a non-interactive failed start still succeeds, and an
interactive declined confirmation returns the `Docker is not running`
error. -/
theorem docker_start_policy_witness :
    (startDocker flagsNI obsDormantStartFail).2 = none ∧
    (startDocker flagsInteractive obsDormantDecline).2 = some .dockerNotRunning := by
  constructor
  · exact ((docker_start_policy flagsNI obsDormantStartFail).1 rfl).1
  · exact (((docker_start_policy flagsInteractive obsDormantDecline).2 rfl).2.1 rfl).1

/-- C6 (counterexample): interactive run, Docker dormant, start confirmed
but the start fails — the gate returns an error, yet the platform-specific
start instructions are never shown, contradicting the claim that every
failed start aborts "after showing platform-specific start instructions". -/
theorem docker_start_policy_cex :
    (checkAll flagsInteractive obsDormantStartFail).2 = some .failedToStartDocker ∧
    Event.showPlatformStartInstructions ∉ (checkAll flagsInteractive obsDormantStartFail).1 := by
  decide

/-- C7: when Docker's presence probe fails but its binary-layer installation
check succeeds, the classification marks Docker dormant and keeps it out of
the installable set, and every other missing tool is placed in the
installable set. -/
theorem dormant_classification (o : Obs) :
    (o.dockerRunning = false → o.dockerBinInstalled = true →
      (classify o (scanTools o toolCatalog).2).2.2 = true ∧
      ToolName.docker ∉ (classify o (scanTools o toolCatalog).2).2.1) ∧
    (∀ t ∈ (scanTools o toolCatalog).2, t ≠ ToolName.docker →
      t ∈ (classify o (scanTools o toolCatalog).2).2.1) := by
  constructor
  · intro hr hb
    constructor
    · rw [classify_dormant_iff]
      exact ⟨(mem_scan_missing o toolCatalog _).mpr ⟨by decide, hr⟩, hb⟩
    · rw [classify_installable_mem]
      rintro ⟨_, hn⟩
      exact hn ⟨rfl, hb⟩
  · intro t ht hne
    rw [classify_installable_mem]
    exact ⟨ht, fun hc => hne hc.1⟩

/-- C7 (witness): with Docker's daemon down but its binary installed, Docker
is classified dormant and excluded from the installable set. -/
theorem dormant_classification_witness :
    (classify obsDormant (scanTools obsDormant toolCatalog).2).2.2 = true ∧
    ToolName.docker ∉ (classify obsDormant (scanTools obsDormant toolCatalog).2).2.1 :=
  (dormant_classification obsDormant).1 rfl rfl

/-- C8: in non-interactive mode the certificate install is a no-op: the
trace is exactly the "skipping certificate generation" info line, no
installer or other external action is invoked, and the result is success. -/
theorem certificates_nonInteractive_noop (p : Flags) (o : Obs)
    (h : p.nonInteractive = true) :
    installTool p o ToolName.certificates = ([Event.infoSkipCertificates], none) ∧
    ∀ e ∈ (installTool p o ToolName.certificates).1, isActionEvent e = false := by
  constructor
  · simp [installTool, h]
  · intro e he
    simp [installTool, h] at he
    subst he
    rfl

/-- C8 (witness): concrete non-interactive certificate install is the
logged no-op. -/
theorem certificates_nonInteractive_noop_witness :
    installTool flagsNI obsBase ToolName.certificates = ([Event.infoSkipCertificates], none) :=
  (certificates_nonInteractive_noop flagsNI obsBase rfl).1

/-- C9 (amended): with all observations fixed — including the confirmation
answers, on which the interactive result genuinely depends — the preflight
go/no-go decision is invariant under any permutation of the probe order;
the full result, including which tool's error is reported, is a function of
the observations and the probe order alone. -/
theorem preflight_order_invariance (p : Flags) (o : Obs) (order : List ToolName)
    (h : order.Perm toolCatalog) :
    ((checkAllWith p o order).2 = none ↔ (checkAll p o).2 = none) := by
  rw [checkAllWith_none_iff, checkAll_none_iff]
  constructor
  · rintro ⟨h1, h2, h3⟩
    refine ⟨h1, ?_, ?_⟩
    · rcases h2 with hh | hh | ⟨ha, hb⟩
      · exact Or.inl fun t ht => hh t (h.mem_iff.mpr ht)
      · exact Or.inr (Or.inl hh)
      · exact Or.inr (Or.inr ⟨ha, fun t ht hp => hb t (h.mem_iff.mpr ht) hp⟩)
    · rintro ⟨hd, hrest⟩
      exact h3 ⟨h.mem_iff.mpr hd, hrest⟩
  · rintro ⟨h1, h2, h3⟩
    refine ⟨h1, ?_, ?_⟩
    · rcases h2 with hh | hh | ⟨ha, hb⟩
      · exact Or.inl fun t ht => hh t (h.mem_iff.mp ht)
      · exact Or.inr (Or.inl hh)
      · exact Or.inr (Or.inr ⟨ha, fun t ht hp => hb t (h.mem_iff.mp ht) hp⟩)
    · rintro ⟨hd, hrest⟩
      exact h3 ⟨h.mem_iff.mp hd, hrest⟩

/-- C9 (witness): probing the catalog in reverse order yields the same
go/no-go decision as the source order on a concrete scenario. -/
theorem preflight_order_invariance_witness :
    ((checkAllWith flagsInteractive obsKubectlMissing reversedCatalog).2 = none ↔
      (checkAll flagsInteractive obsKubectlMissing).2 = none) :=
  preflight_order_invariance flagsInteractive obsKubectlMissing reversedCatalog (by decide)

/-- C9 (counterexample): two interactive runs with identical flags, memory
reading, probe observations and installer observations — differing only in
the user's consent answer, which the claim does not fix — produce different
preflight results, so the result is not a function of the probe and
installer observations, memory and flags alone. -/
theorem preflight_order_invariance_cex :
    (checkAll flagsInteractive obsKubectlMissing).2 = none ∧
    (checkAll flagsInteractive { obsKubectlMissing with installConfirm := false }).2 =
      some .prerequisitesNotInstalled := by
  decide

/-- C10: a non-interactive preflight run never emits an interactive
confirmation prompt on any path. -/
theorem nonInteractive_no_prompts (p : Flags) (o : Obs) (h : p.nonInteractive = true) :
    ∀ e ∈ (checkAll p o).1, isPromptEvent e = false :=
  fun e he => checkAllWith_promptFree p o toolCatalog h e he

/-- C10 (witness): a stressed non-interactive run (low memory, missing and
failing tools, dormant Docker with failing start) emits no prompt. -/
theorem nonInteractive_no_prompts_witness :
    ((checkAll flagsNI obsStress).1.all fun e => !isPromptEvent e) = true := by
  rw [List.all_eq_true]
  intro e he
  have h := nonInteractive_no_prompts flagsNI obsStress rfl e he
  simp [h]

end OpenframePreflight

namespace OpenframeCmd

/-- C2 (amended): the bootstrap command registers exactly the flags
deployment-mode, non-interactive, verbose (with shorthand -v), force, repo
and branch — but not values — and accepts at most one positional
cluster-name argument. -/
theorem bootstrap_flag_surface :
    bootstrapFlags.map FlagDef.name =
      ["deployment-mode", "non-interactive", "verbose", "force", "repo", "branch"] ∧
    (bootstrapFlags.filter fun f => f.name == "verbose").map FlagDef.shorthand =
      [some "v"] ∧
    bootstrapMaxPositionalArgs = 1 ∧
    flagRegistered "values" = false := by
  refine ⟨rfl, by decide, rfl, by decide⟩

/-- C2 (counterexample): the flag `--values` is not registered on the
bootstrap command, contradicting the claim that it is among the registered
flags. -/
theorem bootstrap_flag_surface_cex : flagRegistered "values" = false := by
  decide

end OpenframeCmd
